import Mathlib

/-!
# vct_flash: Micronas VCT I2C flash utility

A shallow embedding of `src/vct_flash.c` (the protocol functions
`vct_get_version`, `vct_erase`, `vct_transfer` and the sequencing done by
`main`) together with theorems about its framing, block sequencing and
error handling.

Machine integers are naturals with explicit reductions (`% 256` for `u8`,
`% 2 ^ 32` for `u32` / `unsigned int`).  The I2C bus is the one external
collaborator: it is a parameter `Bus`, a function from the operations issued
so far and the operation issued now to the response of the device, and every
function threads the list of operations issued so far (the trace).
-/

namespace VctFlash

/-! ## Constants (lines 12-24 of the source) -/

def MAX_SIZE : Nat := 8 * 1024 * 1024
def BLOCK_SIZE : Nat := 16
def VCT_I2C_ADDR : Nat := 0x68
def VCT_VERSION : Nat := 0x03
def VCT_READ : Nat := 0x23
def VCT_WRITE : Nat := 0x22
def VCT_ERASE : Nat := 0x2a

/-- The read flag of an `i2c_msg`, from `linux/i2c.h` (not part of the repository). -/
def I2C_M_RD : Nat := 0x0001

/-! ## The bus -/

/-- One `struct i2c_msg` as handed to `ioctl(I2C_RDWR)`: `data` holds the `len`
bytes found at `buf` for a message written to the device and is empty for a
message read from the device, whose buffer content is not transmitted. -/
structure i2c_msg where
  addr : Nat
  flags : Nat
  len : Nat
  data : List Nat
  deriving DecidableEq

/-- The calls the program makes on the I2C device file, with their arguments. -/
inductive BusOp where
  /-- The call `i2c_smbus_write_byte(i2c, value)`. -/
  | smbus_write_byte (value : Nat)
  /-- The call `i2c_smbus_read_byte(i2c)`. -/
  | smbus_read_byte
  /-- The call `i2c_smbus_write_byte_data(i2c, command, value)`. -/
  | smbus_write_byte_data (command value : Nat)
  /-- The call `ioctl(i2c, I2C_RDWR, &msgset)` with the messages of `msgset`. -/
  | rdwr (msgs : List i2c_msg)
  deriving DecidableEq

/-- The bytes a call hands to the bus for transmission to the device, in order
(the arguments of the SMBus calls, the written segments of an `I2C_RDWR`). -/
def BusOp.out_bytes : BusOp → List Nat
  | .smbus_write_byte v => [v]
  | .smbus_read_byte => []
  | .smbus_write_byte_data c v => [c, v]
  | .rdwr msgs => (msgs.map (fun m => m.data)).flatten

/-- Is the call a block transaction, that is an `ioctl(I2C_RDWR)`? -/
def BusOp.is_rdwr : BusOp → Bool
  | .rdwr _ => true
  | _ => false

/-- The header segment of a block transaction: the bytes of its first message. -/
def BusOp.header : BusOp → Option (List Nat)
  | .rdwr (m :: _) => some m.data
  | _ => none

/-- What a call returns: the integer return value `ret` and, for a message read
from the device, the byte `data j` received at position `j`. -/
structure Resp where
  ret : Int
  data : Nat → Nat

/-- The device and bus as seen from the program: the response to a call, given
the calls issued before it (oldest first). -/
abbrev Bus := List BusOp → BusOp → Resp

/-- Number of block transactions in a trace. -/
def nblocks (tr : List BusOp) : Nat := (tr.filter BusOp.is_rdwr).length

/-! ## The command frame and the protocol functions -/

/-- The source's `struct vct_cmd` (lines 26-32): five `u8` fields, no padding. -/
structure vct_cmd where
  cmd : Nat
  addr1 : Nat
  addr2 : Nat
  addr3 : Nat
  count : Nat
  deriving DecidableEq

/-- The `sizeof(vct_cmd)` bytes of the struct in memory order. -/
def vct_cmd.bytes (c : vct_cmd) : List Nat := [c.cmd, c.addr1, c.addr2, c.addr3, c.count]

/-- The initialiser of `vct_cmd` in `vct_transfer` (lines 59-65); the parameters
are `u32 address`, `u8 count`, `u8 cmd` and every field is a `u8`. -/
def vct_cmd_init (address count cmd : Nat) : vct_cmd :=
  let address := address % 2 ^ 32
  { cmd := cmd % 256
    addr1 := ((address &&& 0xff0000) >>> 16) % 256
    addr2 := ((address &&& 0xff00) >>> 8) % 256
    addr3 := (address &&& 0xff) % 256
    count := count % 256 }

/-- The two messages `vct_transfer` builds (lines 66-78); `buf` is the memory at
the pointer argument. -/
def vct_messages (address count : Nat) (buf : List Nat) (cmd : Nat) : List i2c_msg :=
  let c := vct_cmd_init address count cmd
  [ { addr := VCT_I2C_ADDR, flags := 0, len := 5, data := c.bytes },
    { addr := VCT_I2C_ADDR
      flags := if cmd % 256 = VCT_READ then I2C_M_RD else 0
      len := count % 256
      data := if cmd % 256 = VCT_READ then [] else buf.take (count % 256) } ]

/-- Result of `vct_transfer`: return value, the memory at `buf` afterwards, trace. -/
structure Transfer where
  ret : Nat
  buf : List Nat
  trace : List BusOp

/-- The source's `vct_transfer` (lines 58-90).  `buf` is the memory starting at
the pointer argument; a successful read stores the `count` received bytes there. -/
def vct_transfer (bus : Bus) (tr : List BusOp) (address count : Nat) (buf : List Nat)
    (cmd : Nat) : Transfer :=
  let op := BusOp.rdwr (vct_messages address count buf cmd)
  let r := bus tr op
  if r.ret < 0 then
    { ret := 1, buf := buf, trace := tr ++ [op] }
  else
    { ret := 0
      buf := if cmd % 256 = VCT_READ then
          (List.range (count % 256)).map (fun j => r.data j % 256) ++ buf.drop (count % 256)
        else buf
      trace := tr ++ [op] }

/-- The source's `vct_get_version` (lines 34-47): returned `u8` and trace. -/
def vct_get_version (bus : Bus) (tr : List BusOp) : Nat × List BusOp :=
  let op1 := BusOp.smbus_write_byte 0x03
  if (bus tr op1).ret < 0 then (0, tr ++ [op1])
  else
    let tr1 := tr ++ [op1]
    let ver := (bus tr1 BusOp.smbus_read_byte).ret
    if ver < 0 then (0, tr1 ++ [BusOp.smbus_read_byte])
    else ((ver % 256).toNat, tr1 ++ [BusOp.smbus_read_byte])

/-- The source's `vct_erase` (lines 49-56): return value and trace. -/
def vct_erase (bus : Bus) (tr : List BusOp) : Nat × List BusOp :=
  let op := BusOp.smbus_write_byte_data VCT_ERASE 0x00
  if (bus tr op).ret ≠ 0 then (1, tr ++ [op]) else (0, tr ++ [op])

/-! ## `main` -/

/-- State at the end of a block loop of `main`. -/
structure LoopEnd where
  /-- The variable `ret`: 10 after a failed block, else 0. -/
  ret : Nat
  /-- The loop counter `i` when the loop is left. -/
  i : Nat
  /-- The memory at `buf`. -/
  buf : List Nat
  /-- The calls made on the bus, oldest first. -/
  trace : List BusOp
  /-- The values of `i` passed to `vct_transfer` as `address`, oldest first
  (kept for the statements about the loop counter; it decides nothing). -/
  offsets : List Nat

/-- The block loop of `main`, lines 164-174 with `cmd = VCT_WRITE` and lines
202-212 with `cmd = VCT_READ` (the two loops differ in nothing else):
`for (i = 0; i < size; i += BLOCK_SIZE) if (vct_transfer(i2c, i, BLOCK_SIZE,
buf + i, cmd)) { ret = 10; break; }`.  `i` is an `unsigned int`, so the
increment is taken modulo `2 ^ 32`; the first argument bounds the number of
iterations and `none` means that the bound was reached.  The last argument
collects the values of `i` passed to `vct_transfer`. -/
def block_loop (bus : Bus) (cmd size : Nat) :
    Nat → Nat → List Nat → List BusOp → List Nat → Option LoopEnd
  | 0, _, _, _, _ => none
  | fuel + 1, i, buf, tr, offs =>
    if i < size then
      let t := vct_transfer bus tr i BLOCK_SIZE (buf.drop i) cmd
      let buf1 := buf.take i ++ t.buf
      if t.ret ≠ 0 then
        some { ret := 10, i := i, buf := buf1, trace := t.trace, offsets := offs ++ [i] }
      else block_loop bus cmd size fuel ((i + BLOCK_SIZE) % 2 ^ 32) buf1 t.trace (offs ++ [i])
    else some { ret := 0, i := i, buf := buf, trace := tr, offsets := offs }

/-- The size test of `main`, line 139 (write path) and line 183 (read path):
`size % BLOCK_SIZE != 0 || size > MAX_SIZE`. -/
def invalid_size (size : Nat) : Bool :=
  size % BLOCK_SIZE != 0 || decide (size > MAX_SIZE)

/-- The value of `argv[2]` as `main` distinguishes it. -/
inductive Mode where
  | write
  | read
  | other
  deriving DecidableEq

/-- Everything `main` receives from outside the bus: arguments, files, memory. -/
structure Env where
  /-- The argument count `argc`. -/
  argc : Nat
  /-- Does `open(argv[1], O_RDWR)` succeed? -/
  open_ok : Bool
  /-- Does `ioctl(i2c, I2C_SLAVE, VCT_I2C_ADDR)` succeed? -/
  slave_ok : Bool
  /-- The argument `argv[2]`. -/
  mode : Mode
  /-- Does `fopen(argv[3], ...)` succeed? -/
  fopen_ok : Bool
  /-- Write path: the value `ftell` gives for the file size, as a `size_t`. -/
  file_size : Nat
  /-- Write path: the bytes of the file, as `fread` delivers them. -/
  file : List Nat
  /-- Does `malloc(size)` succeed? -/
  malloc_ok : Bool
  /-- Read path: the value of `atoi(argv[4])`, as a `size_t`. -/
  size_arg : Nat
  /-- Read path: does `fwrite` write all the bytes it is given? -/
  fwrite_ok : Bool

/-- What a run of `main` leaves behind. -/
structure Outcome where
  /-- The exit status of the process. -/
  status : Nat
  /-- The calls made on the bus, oldest first. -/
  trace : List BusOp
  /-- The value of the loop counter `i` when a block loop was left. -/
  cursor : Option Nat
  /-- The bytes handed to `fwrite` on the read path. -/
  stored : Option (List Nat)
  deriving DecidableEq

/-- An `exit(status)` before any block loop. -/
def exit_with (status : Nat) (tr : List BusOp) : Option Outcome :=
  some { status := status, trace := tr, cursor := none, stored := none }

/-- The source's `main` (lines 99-229), without the text it prints.  The block
loops get `size / BLOCK_SIZE + 1` iterations; `none` means a loop did not
finish within them.  On the write path `buf` holds what `fread` delivered, at
most `size` bytes of the file.  On the read path the content of the freshly
allocated `buf` is indeterminate in C and is zeros here; it is never observed,
because only the first `i` bytes, all received from the device, reach `fwrite`. -/
def main (bus : Bus) (env : Env) : Option Outcome :=
  if env.argc < 4 then exit_with 1 []
  else if !env.open_ok then exit_with 2 []
  else if !env.slave_ok then exit_with 2 []
  else
    let tr0 := (vct_get_version bus []).2
    match env.mode with
    | .write =>
      if !env.fopen_ok then exit_with 5 tr0
      else
        let size := env.file_size
        if invalid_size size then exit_with 1 tr0
        else if !env.malloc_ok then exit_with 1 tr0
        else
          let buf := env.file.take size
          let len := buf.length % 2 ^ 32
          if len < size then exit_with 5 tr0
          else
            let e := vct_erase bus tr0
            if e.1 ≠ 0 then exit_with 6 e.2
            else
              let tr2 := (vct_get_version bus e.2).2
              match block_loop bus VCT_WRITE size (size / BLOCK_SIZE + 1) 0 buf tr2 [] with
              | none => none
              | some r =>
                some { status := r.ret, trace := r.trace, cursor := some r.i, stored := none }
    | .read =>
      if env.argc < 5 then exit_with 1 tr0
      else
        let size := env.size_arg
        if invalid_size size then exit_with 1 tr0
        else if !env.malloc_ok then exit_with 1 tr0
        else if !env.fopen_ok then exit_with 5 tr0
        else
          match block_loop bus VCT_READ size (size / BLOCK_SIZE + 1) 0 (List.replicate size 0) tr0 [] with
          | none => none
          | some r =>
            if !env.fwrite_ok then
              some { status := 5, trace := r.trace, cursor := some r.i, stored := some (r.buf.take r.i) }
            else
              some { status := r.ret, trace := r.trace, cursor := some r.i, stored := some (r.buf.take r.i) }
    | .other => exit_with 1 tr0

/-! ## Definitions used in the statements -/

/-- Does the program take the response `r` to the call `op` as a failure?  The
tests of lines 35 and 41 (`< 0`), line 50 (nonzero) and line 84 (`< 0`). -/
def failed (op : BusOp) (r : Resp) : Bool :=
  match op with
  | .smbus_write_byte_data _ _ => r.ret != 0
  | _ => decide (r.ret < 0)

/-- The trace after `k` block transactions `blk 0`, ..., `blk (k - 1)` that follow `pre`. -/
def hist (pre : List BusOp) (blk : Nat → BusOp) (k : Nat) : List BusOp :=
  pre ++ (List.range k).map blk

/-- The block transaction expected for block `k` of a write of `image`: the
header `[WRITE, addr >> 16, (addr >> 8) & 0xFF, addr & 0xFF, 16]` with
`addr = 16 * k`, then the 16 bytes of `image` from offset `16 * k`. -/
def write_block (image : List Nat) (k : Nat) : BusOp :=
  BusOp.rdwr
    [ { addr := 0x68, flags := 0, len := 5
        data := [0x22, (16 * k) >>> 16, ((16 * k) >>> 8) &&& 0xFF, (16 * k) &&& 0xFF, 16] },
      { addr := 0x68, flags := 0, len := 16, data := (image.drop (16 * k)).take 16 } ]

/-- The block transaction expected for block `k` of a read: the header
`[READ, addr >> 16, (addr >> 8) & 0xFF, addr & 0xFF, 16]` with `addr = 16 * k`,
then a segment of 16 bytes read from the device. -/
def read_block (k : Nat) : BusOp :=
  BusOp.rdwr
    [ { addr := 0x68, flags := 0, len := 5
        data := [0x23, (16 * k) >>> 16, ((16 * k) >>> 8) &&& 0xFF, (16 * k) &&& 0xFF, 16] },
      { addr := 0x68, flags := 1, len := 16, data := [] } ]

/-- The 16 bytes the bus delivers for block `k` of a read whose block
transactions follow the calls `pre`. -/
def read_payload (bus : Bus) (pre : List BusOp) (k : Nat) : List Nat :=
  (List.range 16).map (fun j => (bus (hist pre read_block k) (read_block k)).data j % 256)

/-- The environment lets the write path reach its size test and pass the
allocation: enough arguments, bus and file opened, memory available. -/
abbrev Env.write_ready (env : Env) : Prop :=
  4 ≤ env.argc ∧ env.open_ok = true ∧ env.slave_ok = true ∧ env.mode = Mode.write ∧
    env.fopen_ok = true ∧ env.malloc_ok = true

/-- The environment lets the read path reach its size test and store the
result: enough arguments, bus and file opened, memory available, `fwrite` works. -/
abbrev Env.read_ready (env : Env) : Prop :=
  5 ≤ env.argc ∧ env.open_ok = true ∧ env.slave_ok = true ∧ env.mode = Mode.read ∧
    env.fopen_ok = true ∧ env.malloc_ok = true ∧ env.fwrite_ok = true

/-- On `bus` the `k`-th block transaction of a run is the first call that fails:
calls of every other kind succeed, the block transactions before the `k`-th
succeed, and the `k`-th fails. -/
def first_failure_at (bus : Bus) (k : Nat) : Prop :=
  ∀ tr op,
    (op.is_rdwr = false → failed op (bus tr op) = false) ∧
    (op.is_rdwr = true → nblocks tr + 1 < k → failed op (bus tr op) = false) ∧
    (op.is_rdwr = true → nblocks tr + 1 = k → failed op (bus tr op) = true)

/-- A bus on which every call succeeds: the version byte is `0x31` and byte `j`
of every block read is `j + 100`. -/
def ok_bus : Bus := fun _ op =>
  match op with
  | .rdwr _ => { ret := 2, data := fun j => j + 100 }
  | .smbus_read_byte => { ret := 0x31, data := fun _ => 0 }
  | _ => { ret := 0, data := fun _ => 0 }

/-- A bus on which exactly the `k`-th block transaction fails; byte `j` of the
block read that follows `n` earlier block transactions is `16 * n + j`. -/
def fail_bus (k : Nat) : Bus := fun tr op =>
  match op with
  | .rdwr _ =>
    { ret := if nblocks tr + 1 = k then -1 else 2, data := fun j => 16 * nblocks tr + j }
  | .smbus_read_byte => { ret := 0x31, data := fun _ => 0 }
  | _ => { ret := 0, data := fun _ => 0 }

/-- A bus on which every version query fails at its write phase and every
other call succeeds; byte `j` of every block read is `j`. -/
def no_version_bus : Bus := fun _ op =>
  match op with
  | .smbus_write_byte _ => { ret := -1, data := fun _ => 0 }
  | .rdwr _ => { ret := 2, data := fun j => j }
  | _ => { ret := 0, data := fun _ => 0 }

/-- A bus on which the erase command fails (negative return value) and every
other call succeeds. -/
def erase_fail_bus : Bus := fun _ op =>
  match op with
  | .smbus_write_byte_data _ _ => { ret := -1, data := fun _ => 0 }
  | .rdwr _ => { ret := 2, data := fun j => j }
  | .smbus_read_byte => { ret := 0x31, data := fun _ => 0 }
  | _ => { ret := 0, data := fun _ => 0 }

/-- An environment for `vct_flash BUS write FILE` with `file` as the content of `FILE`. -/
def write_env (file : List Nat) : Env :=
  { argc := 4, open_ok := true, slave_ok := true, mode := Mode.write, fopen_ok := true,
    file_size := file.length, file := file, malloc_ok := true, size_arg := 0, fwrite_ok := true }

/-- An environment for `vct_flash BUS read FILE SIZE`. -/
def read_env (size : Nat) : Env :=
  { argc := 5, open_ok := true, slave_ok := true, mode := Mode.read, fopen_ok := true,
    file_size := 0, file := [], malloc_ok := true, size_arg := size, fwrite_ok := true }

/-! ## Lemmas: the address bytes -/

theorem and_mask_shift (a s : Nat) : (a &&& (255 <<< s)) >>> s = a / 2 ^ s % 256 := by
  have h : (a &&& (255 <<< s)) >>> s = (a >>> s) &&& (2 ^ 8 - 1) := by
    apply Nat.eq_of_testBit_eq
    intro j
    simp only [Nat.testBit_shiftRight, Nat.testBit_and, Nat.testBit_shiftLeft]
    have : (255 : Nat) = 2 ^ 8 - 1 := by norm_num
    rw [this]
    simp
  rw [h, Nat.and_pow_two_sub_one_eq_mod, Nat.shiftRight_eq_div_pow]

theorem addr1_eq (a : Nat) : (a &&& 0xff0000) >>> 16 = a / 65536 % 256 := by
  have := and_mask_shift a 16
  simpa using this

theorem addr2_eq (a : Nat) : (a &&& 0xff00) >>> 8 = a / 256 % 256 := by
  have := and_mask_shift a 8
  simpa using this

theorem addr3_eq (a : Nat) : a &&& 0xff = a % 256 := by
  have := Nat.and_pow_two_sub_one_eq_mod a 8
  simpa using this

theorem vct_cmd_init_eq (address count cmd : Nat) :
    vct_cmd_init address count cmd =
      { cmd := cmd % 256
        addr1 := address % 2 ^ 32 / 65536 % 256
        addr2 := address % 2 ^ 32 / 256 % 256
        addr3 := address % 2 ^ 32 % 256
        count := count % 256 } := by
  simp only [vct_cmd_init, addr1_eq, addr2_eq, addr3_eq, Nat.mod_mod]

/-! ## Lemmas: one block transfer and the block loop -/

theorem hist_succ (pre : List BusOp) (blk : Nat → BusOp) (k : Nat) :
    hist pre blk (k + 1) = hist pre blk k ++ [blk k] := by
  simp [hist, List.range_succ]

theorem vct_transfer_trace (bus : Bus) (tr : List BusOp) (address count : Nat) (buf : List Nat)
    (cmd : Nat) :
    (vct_transfer bus tr address count buf cmd).trace
      = tr ++ [BusOp.rdwr (vct_messages address count buf cmd)] := by
  by_cases h : (bus tr (BusOp.rdwr (vct_messages address count buf cmd))).ret < 0 <;>
    simp [vct_transfer, h]

theorem vct_transfer_ret (bus : Bus) (tr : List BusOp) (address count : Nat) (buf : List Nat)
    (cmd : Nat) :
    (vct_transfer bus tr address count buf cmd).ret
      = if (bus tr (BusOp.rdwr (vct_messages address count buf cmd))).ret < 0 then 1 else 0 := by
  by_cases h : (bus tr (BusOp.rdwr (vct_messages address count buf cmd))).ret < 0 <;>
    simp [vct_transfer, h]

theorem vct_transfer_buf_fail (bus : Bus) (tr : List BusOp) (address count : Nat) (buf : List Nat)
    (cmd : Nat) (h : (bus tr (BusOp.rdwr (vct_messages address count buf cmd))).ret < 0) :
    (vct_transfer bus tr address count buf cmd).buf = buf := by
  unfold vct_transfer
  simp [h]

theorem block_loop_run (bus : Bus) (cmd N : Nat) (hN : 16 * N ≤ MAX_SIZE)
    (pre : List BusOp) (blk : Nat → BusOp) (P : Nat → List Nat → Prop)
    (hop : ∀ a buf, a < N → P a buf →
      BusOp.rdwr (vct_messages (16 * a) BLOCK_SIZE (buf.drop (16 * a)) cmd) = blk a)
    (hnext : ∀ a buf, a < N → P a buf → 0 ≤ (bus (hist pre blk a) (blk a)).ret →
      P (a + 1) (buf.take (16 * a) ++
        (vct_transfer bus (hist pre blk a) (16 * a) BLOCK_SIZE (buf.drop (16 * a)) cmd).buf))
    (M : Nat) (hM : M ≤ N)
    (hok : ∀ k, k < M → 0 ≤ (bus (hist pre blk k) (blk k)).ret)
    (hfail : M < N → (bus (hist pre blk M) (blk M)).ret < 0) :
    ∀ d a fuel buf offs, a + d = N → a ≤ M → d < fuel → P a buf →
      ∃ r, block_loop bus cmd (16 * N) fuel (16 * a) buf (hist pre blk a) offs = some r ∧
        r.ret = (if M < N then 10 else 0) ∧ r.i = 16 * M ∧
        r.trace = hist pre blk (if M < N then M + 1 else M) ∧ P M r.buf := by
  intro d
  induction d with
  | zero =>
    intro a fuel buf offs had haM hfuel hP
    obtain ⟨f, rfl⟩ : ∃ f, fuel = f + 1 := ⟨fuel - 1, by omega⟩
    have haN : a = N := by omega
    have hMN : M = N := by omega
    subst haN
    subst hMN
    refine ⟨⟨0, 16 * M, buf, hist pre blk M, offs⟩, ?_, ?_, rfl, ?_, hP⟩
    · simp [block_loop]
    · simp
    · simp
  | succ d ih =>
    intro a fuel buf offs had haM hfuel hP
    obtain ⟨f, rfl⟩ : ∃ f, fuel = f + 1 := ⟨fuel - 1, by omega⟩
    have haN : a < N := by omega
    have hlt : 16 * a < 16 * N := by omega
    have hopa := hop a buf haN hP
    rw [block_loop]
    simp only [hlt, if_true, vct_transfer_trace, vct_transfer_ret, hopa]
    by_cases hr : (bus (hist pre blk a) (blk a)).ret < 0
    · have haMe : a = M := by
        by_contra hne
        have := hok a (by omega)
        omega
      subst haMe
      have hb := vct_transfer_buf_fail bus (hist pre blk a) (16 * a) BLOCK_SIZE
        (buf.drop (16 * a)) cmd (by rw [hopa]; exact hr)
      refine ⟨⟨10, 16 * a, buf, hist pre blk (a + 1), offs ++ [16 * a]⟩, ?_, ?_, rfl, ?_, hP⟩
      · simp [hr, hb, hist_succ]
      · simp [haN]
      · simp [haN]
    · have haM2 : a < M := by
        by_contra hne
        have hMe : a = M := by omega
        subst hMe
        exact hr (hfail haN)
      have hnx := hnext a buf haN hP (by omega)
      have hwrap : (16 * a + BLOCK_SIZE) % 2 ^ 32 = 16 * (a + 1) := by
        simp only [BLOCK_SIZE, MAX_SIZE] at *
        omega
      have := ih (a + 1) f _ (offs ++ [16 * a]) (by omega) (by omega) (by omega) hnx
      simp only [hr, if_false, hwrap, ← hist_succ]
      simpa using this

theorem shr8_and (a : Nat) : (a >>> 8) &&& 0xFF = a / 256 % 256 := by
  have := Nat.and_pow_two_sub_one_eq_mod (a >>> 8) 8
  simpa [Nat.shiftRight_eq_div_pow] using this

theorem vct_messages_write (image : List Nat) (k : Nat) (hk : 16 * k < 2 ^ 24) :
    BusOp.rdwr (vct_messages (16 * k) BLOCK_SIZE (image.drop (16 * k)) VCT_WRITE)
      = write_block image k := by
  simp only [vct_messages, vct_cmd_init_eq, vct_cmd.bytes, write_block, BLOCK_SIZE, VCT_WRITE,
    VCT_READ, VCT_I2C_ADDR, I2C_M_RD, shr8_and, addr3_eq, Nat.shiftRight_eq_div_pow]
  have h1 : 16 * k % 2 ^ 32 = 16 * k := Nat.mod_eq_of_lt (by omega)
  have h2 : 16 * k / 2 ^ 16 % 256 = 16 * k / 2 ^ 16 := Nat.mod_eq_of_lt (by omega)
  simp [h1]
  omega

theorem vct_messages_read (buf : List Nat) (k : Nat) (hk : 16 * k < 2 ^ 24) :
    BusOp.rdwr (vct_messages (16 * k) BLOCK_SIZE buf VCT_READ) = read_block k := by
  simp only [vct_messages, vct_cmd_init_eq, vct_cmd.bytes, read_block, BLOCK_SIZE,
    VCT_READ, VCT_I2C_ADDR, I2C_M_RD, shr8_and, addr3_eq, Nat.shiftRight_eq_div_pow]
  have h1 : 16 * k % 2 ^ 32 = 16 * k := Nat.mod_eq_of_lt (by omega)
  simp [h1]
  omega

theorem write_loop_run (bus : Bus) (N : Nat) (hN : 16 * N ≤ MAX_SIZE)
    (pre : List BusOp) (image : List Nat) (M : Nat) (hM : M ≤ N)
    (hok : ∀ k, k < M → 0 ≤ (bus (hist pre (write_block image) k) (write_block image k)).ret)
    (hfail : M < N → (bus (hist pre (write_block image) M) (write_block image M)).ret < 0) :
    ∃ r, block_loop bus VCT_WRITE (16 * N) (16 * N / BLOCK_SIZE + 1) 0 image pre [] = some r ∧
      r.ret = (if M < N then 10 else 0) ∧ r.i = 16 * M ∧
      r.trace = hist pre (write_block image) (if M < N then M + 1 else M) := by
  have key := block_loop_run bus VCT_WRITE N hN pre (write_block image) (fun _ buf => buf = image)
    (by
      intro a buf ha hP
      subst hP
      exact vct_messages_write buf a (by simp only [MAX_SIZE] at hN; omega))
    (by
      intro a buf _ hP _
      subst hP
      have : (vct_transfer bus (hist pre (write_block buf) a) (16 * a) BLOCK_SIZE
          (buf.drop (16 * a)) VCT_WRITE).buf = buf.drop (16 * a) := by
        unfold vct_transfer
        simp only [VCT_WRITE, VCT_READ]
        split <;> simp
      rw [this, List.take_append_drop])
    M hM hok hfail N 0 (16 * N / BLOCK_SIZE + 1) image [] (by omega) (by omega)
    (by simp only [BLOCK_SIZE]; omega) rfl
  obtain ⟨r, h1, h2, h3, h4, _⟩ := key
  refine ⟨r, ?_, h2, h3, h4⟩
  simpa [hist] using h1

theorem read_loop_run (bus : Bus) (N : Nat) (hN : 16 * N ≤ MAX_SIZE)
    (pre : List BusOp) (buf : List Nat) (hbuf : buf.length = 16 * N) (M : Nat) (hM : M ≤ N)
    (hok : ∀ k, k < M → 0 ≤ (bus (hist pre read_block k) (read_block k)).ret)
    (hfail : M < N → (bus (hist pre read_block M) (read_block M)).ret < 0) :
    ∃ r, block_loop bus VCT_READ (16 * N) (16 * N / BLOCK_SIZE + 1) 0 buf pre [] = some r ∧
      r.ret = (if M < N then 10 else 0) ∧ r.i = 16 * M ∧
      r.trace = hist pre read_block (if M < N then M + 1 else M) ∧
      r.buf.take (16 * M) = ((List.range M).map (read_payload bus pre)).flatten := by
  have key := block_loop_run bus VCT_READ N hN pre read_block
    (fun a b => b.length = 16 * N ∧
      b.take (16 * a) = ((List.range a).map (read_payload bus pre)).flatten)
    (by
      intro a b ha _
      exact vct_messages_read _ a (by simp only [MAX_SIZE] at hN; omega))
    (by
      intro a b ha hP hr
      obtain ⟨hlen, htake⟩ := hP
      have hr2 : ¬ (bus (hist pre read_block a) (read_block a)).ret < 0 := by omega
      have hm := vct_messages_read (b.drop (16 * a)) a (by simp only [MAX_SIZE] at hN; omega)
      have : (vct_transfer bus (hist pre read_block a) (16 * a) BLOCK_SIZE
          (b.drop (16 * a)) VCT_READ).buf
            = read_payload bus pre a ++ (b.drop (16 * a)).drop 16 := by
        unfold vct_transfer
        simp only [hm, hr2, if_false]
        simp [VCT_READ, BLOCK_SIZE, read_payload]
      rw [this]
      have hl1 : (b.take (16 * a)).length = 16 * a := by
        rw [List.length_take]; omega
      have hl2 : (read_payload bus pre a).length = 16 := by simp [read_payload]
      constructor
      · simp only [List.length_append, hl1, hl2, List.length_drop]
        omega
      · rw [← List.append_assoc, List.take_append_of_le_length (by
          simp only [List.length_append, hl1, hl2]; omega)]
        rw [List.take_of_length_le (by simp only [List.length_append, hl1, hl2]; omega)]
        rw [htake, List.range_succ, List.map_append, List.flatten_append]
        simp)
    M hM hok hfail N 0 (16 * N / BLOCK_SIZE + 1) buf [] (by omega) (by omega)
    (by simp only [BLOCK_SIZE]; omega) ⟨hbuf, by simp⟩
  obtain ⟨r, h1, h2, h3, h4, _, h5⟩ := key
  refine ⟨r, ?_, h2, h3, h4, h5⟩
  simpa [hist] using h1

/-! ## Lemmas: runs of `main` -/

theorem invalid_size_mul (N : Nat) (hN : 16 * N ≤ MAX_SIZE) : invalid_size (16 * N) = false := by
  simp [invalid_size, BLOCK_SIZE]
  omega

theorem main_write_run (bus : Bus) (env : Env) (hready : env.write_ready) (N : Nat)
    (hsize : env.file_size = 16 * N) (hN : 16 * N ≤ MAX_SIZE) (hfile : 16 * N ≤ env.file.length)
    (herase : (bus (vct_get_version bus []).2 (BusOp.smbus_write_byte_data 0x2a 0)).ret = 0)
    (pre : List BusOp)
    (hpre : pre = (vct_get_version bus
      ((vct_get_version bus []).2 ++ [BusOp.smbus_write_byte_data 0x2a 0])).2)
    (M : Nat) (hM : M ≤ N)
    (hok : ∀ k, k < M → 0 ≤ (bus (hist pre (write_block (env.file.take (16 * N))) k)
      (write_block (env.file.take (16 * N)) k)).ret)
    (hfail : M < N → (bus (hist pre (write_block (env.file.take (16 * N))) M)
      (write_block (env.file.take (16 * N)) M)).ret < 0) :
    main bus env = some
      { status := if M < N then 10 else 0
        trace := hist pre (write_block (env.file.take (16 * N))) (if M < N then M + 1 else M)
        cursor := some (16 * M)
        stored := none } := by
  obtain ⟨h1, h2, h3, h4, h5, h6⟩ := hready
  obtain ⟨r, hr, hret, hi, htr⟩ :=
    write_loop_run bus N hN pre (env.file.take (16 * N)) M hM hok hfail
  have hlen : ¬ (min (16 * N) env.file.length % 2 ^ 32 < 16 * N) := by
    rw [Nat.min_eq_left hfile]
    simp only [MAX_SIZE] at hN
    omega
  have hargc : ¬ env.argc < 4 := by omega
  subst hpre
  have he : vct_erase bus (vct_get_version bus []).2
      = (0, (vct_get_version bus []).2 ++ [BusOp.smbus_write_byte_data 0x2a 0]) := by
    simp [vct_erase, VCT_ERASE, herase]
  simp only [main, hargc, h2, h3, h4, h5, h6, hsize, invalid_size_mul N hN, he,
    List.length_take, hlen, Bool.not_true, Bool.false_eq_true, if_false, ne_eq, not_true_eq_false,
    hr, hret, hi, htr]

theorem main_read_run (bus : Bus) (env : Env) (hready : env.read_ready) (N : Nat)
    (hsize : env.size_arg = 16 * N) (hN : 16 * N ≤ MAX_SIZE)
    (pre : List BusOp) (hpre : pre = (vct_get_version bus []).2)
    (M : Nat) (hM : M ≤ N)
    (hok : ∀ k, k < M → 0 ≤ (bus (hist pre read_block k) (read_block k)).ret)
    (hfail : M < N → (bus (hist pre read_block M) (read_block M)).ret < 0) :
    main bus env = some
      { status := if M < N then 10 else 0
        trace := hist pre read_block (if M < N then M + 1 else M)
        cursor := some (16 * M)
        stored := some ((List.range M).map (read_payload bus pre)).flatten } := by
  obtain ⟨h1, h2, h3, h4, h5, h6, h7⟩ := hready
  obtain ⟨r, hr, hret, hi, htr, hbuf⟩ :=
    read_loop_run bus N hN pre (List.replicate (16 * N) 0) (by simp) M hM hok hfail
  have hargc : ¬ env.argc < 4 := by omega
  have hargc5 : ¬ env.argc < 5 := by omega
  subst hpre
  simp only [main, hargc, hargc5, h2, h3, h4, h5, h6, h7, hsize, invalid_size_mul N hN,
    Bool.not_true, Bool.false_eq_true, if_false, hr, hret, hi, htr, hbuf]

theorem version_trace_cases (bus : Bus) (tr : List BusOp) :
    (vct_get_version bus tr).2 = tr ++ [BusOp.smbus_write_byte 0x03] ∨
      (vct_get_version bus tr).2 = tr ++ [BusOp.smbus_write_byte 0x03, BusOp.smbus_read_byte] := by
  unfold vct_get_version
  by_cases h1 : (bus tr (BusOp.smbus_write_byte 0x03)).ret < 0
  · left; simp [h1]
  · right
    by_cases h2 : (bus (tr ++ [BusOp.smbus_write_byte 0x03]) BusOp.smbus_read_byte).ret < 0 <;>
      simp [h1, h2]

theorem version_trace_ok (bus : Bus) (tr : List BusOp)
    (h1 : 0 ≤ (bus tr (BusOp.smbus_write_byte 0x03)).ret) :
    (vct_get_version bus tr).2 = tr ++ [BusOp.smbus_write_byte 0x03, BusOp.smbus_read_byte] := by
  unfold vct_get_version
  have h1n : ¬ (bus tr (BusOp.smbus_write_byte 0x03)).ret < 0 := by omega
  by_cases h2 : (bus (tr ++ [BusOp.smbus_write_byte 0x03]) BusOp.smbus_read_byte).ret < 0 <;>
    simp [h1n, h2]

theorem nblocks_append (a b : List BusOp) : nblocks (a ++ b) = nblocks a + nblocks b := by
  simp [nblocks, List.filter_append]

theorem nblocks_version (bus : Bus) (tr : List BusOp) :
    nblocks (vct_get_version bus tr).2 = nblocks tr := by
  rcases version_trace_cases bus tr with h | h <;> rw [h, nblocks_append] <;> rfl

theorem nblocks_hist (pre : List BusOp) (blk : Nat → BusOp) (hblk : ∀ k, (blk k).is_rdwr = true)
    (k : Nat) : nblocks (hist pre blk k) = nblocks pre + k := by
  induction k with
  | zero => simp [hist]
  | succ k ih =>
    rw [hist_succ, nblocks_append, ih]
    simp [nblocks, hblk]
    omega

theorem write_block_is_rdwr (image : List Nat) (k : Nat) : (write_block image k).is_rdwr = true :=
  rfl

theorem read_block_is_rdwr (k : Nat) : (read_block k).is_rdwr = true := rfl

theorem main_write_counted (bus : Bus) (env : Env) (hready : env.write_ready)
    (hsize : env.file_size = env.file.length) (h16 : env.file.length % 16 = 0)
    (hmax : env.file.length ≤ 8388608)
    (herase : ∀ tr, (bus tr (BusOp.smbus_write_byte_data 0x2a 0)).ret = 0)
    (M : Nat) (hM : 16 * M ≤ env.file.length)
    (hok : ∀ tr msgs, nblocks tr < M → 0 ≤ (bus tr (BusOp.rdwr msgs)).ret)
    (hfail : 16 * M < env.file.length →
      ∀ tr msgs, nblocks tr = M → (bus tr (BusOp.rdwr msgs)).ret < 0) :
    main bus env = some
      { status := if 16 * M < env.file.length then 10 else 0
        trace := (vct_get_version bus
            ((vct_get_version bus []).2 ++ [BusOp.smbus_write_byte_data 0x2a 0])).2 ++
          (List.range (if 16 * M < env.file.length then M + 1 else M)).map (write_block env.file)
        cursor := some (16 * M)
        stored := none } := by
  obtain ⟨N, hN⟩ : ∃ N, env.file.length = 16 * N := ⟨env.file.length / 16, by omega⟩
  have htake : env.file.take (16 * N) = env.file := List.take_of_length_le (by omega)
  have hpre0 : nblocks (vct_get_version bus
      ((vct_get_version bus []).2 ++ [BusOp.smbus_write_byte_data 0x2a 0])).2 = 0 := by
    rw [nblocks_version, nblocks_append, nblocks_version]
    rfl
  have hlt : (16 * M < env.file.length) ↔ M < N := by omega
  have key := main_write_run bus env hready N (by omega) (by simp only [MAX_SIZE]; omega)
    (by omega) (herase _) _ rfl M (by omega)
    (by
      intro k hk
      apply hok
      rw [nblocks_hist _ _ (write_block_is_rdwr _), hpre0]
      omega)
    (by
      intro hMN
      apply hfail (by omega)
      rw [nblocks_hist _ _ (write_block_is_rdwr _), hpre0]
      omega)
  rw [key, htake]
  simp only [hlt, hist]

theorem main_read_counted (bus : Bus) (env : Env) (hready : env.read_ready)
    (h16 : env.size_arg % 16 = 0) (hmax : env.size_arg ≤ 8388608)
    (M : Nat) (hM : 16 * M ≤ env.size_arg)
    (hok : ∀ tr msgs, nblocks tr < M → 0 ≤ (bus tr (BusOp.rdwr msgs)).ret)
    (hfail : 16 * M < env.size_arg →
      ∀ tr msgs, nblocks tr = M → (bus tr (BusOp.rdwr msgs)).ret < 0) :
    main bus env = some
      { status := if 16 * M < env.size_arg then 10 else 0
        trace := (vct_get_version bus []).2 ++
          (List.range (if 16 * M < env.size_arg then M + 1 else M)).map read_block
        cursor := some (16 * M)
        stored := some
          ((List.range M).map (read_payload bus (vct_get_version bus []).2)).flatten } := by
  obtain ⟨N, hN⟩ : ∃ N, env.size_arg = 16 * N := ⟨env.size_arg / 16, by omega⟩
  have hpre0 : nblocks (vct_get_version bus []).2 = 0 := by
    rw [nblocks_version]
    rfl
  have hlt : (16 * M < env.size_arg) ↔ M < N := by omega
  have key := main_read_run bus env hready N hN (by simp only [MAX_SIZE]; omega) _ rfl M
    (by omega)
    (by
      intro k hk
      apply hok
      rw [nblocks_hist _ _ read_block_is_rdwr, hpre0]
      omega)
    (by
      intro hMN
      apply hfail (by omega)
      rw [nblocks_hist _ _ read_block_is_rdwr, hpre0]
      omega)
  rw [key]
  simp only [hlt, hist]

theorem ok_bus_never_fails (tr : List BusOp) (op : BusOp) : failed op (ok_bus tr op) = false := by
  cases op <;> simp [failed, ok_bus]

theorem fail_bus_first_failure (k : Nat) : first_failure_at (fail_bus k) k := by
  intro tr op
  cases op <;> simp [failed, fail_bus, BusOp.is_rdwr]
  omega

theorem write_block_decode (image : List Nat) (k : Nat) :
    ∃ a1 a2 a3, write_block image k = BusOp.rdwr
        [ { addr := 0x68, flags := 0, len := 5, data := [0x22, a1, a2, a3, 16] },
          { addr := 0x68, flags := 0, len := 16, data := (image.drop (16 * k)).take 16 } ] ∧
      a2 < 256 ∧ a3 < 256 ∧ a1 * 65536 + a2 * 256 + a3 = 16 * k := by
  refine ⟨(16 * k) >>> 16, ((16 * k) >>> 8) &&& 0xFF, (16 * k) &&& 0xFF, rfl, ?_⟩
  rw [shr8_and, addr3_eq, Nat.shiftRight_eq_div_pow]
  omega

theorem first_failure_parts (bus : Bus) (k : Nat) (hk : 1 ≤ k) (h : first_failure_at bus k) :
    (∀ tr, 0 ≤ (bus tr (BusOp.smbus_write_byte 0x03)).ret) ∧
    (∀ tr, (bus tr (BusOp.smbus_write_byte_data 0x2a 0)).ret = 0) ∧
    (∀ tr msgs, nblocks tr < k - 1 → 0 ≤ (bus tr (BusOp.rdwr msgs)).ret) ∧
    (∀ tr msgs, nblocks tr = k - 1 → (bus tr (BusOp.rdwr msgs)).ret < 0) := by
  refine ⟨?_, ?_, ?_, ?_⟩
  · intro tr
    have := (h tr (BusOp.smbus_write_byte 0x03)).1 rfl
    simpa [failed] using this
  · intro tr
    have := (h tr (BusOp.smbus_write_byte_data 0x2a 0)).1 rfl
    simpa [failed] using this
  · intro tr msgs hlt
    have := (h tr (BusOp.rdwr msgs)).2.1 rfl (by omega)
    simpa [failed] using this
  · intro tr msgs heq
    have := (h tr (BusOp.rdwr msgs)).2.2 rfl (by omega)
    simpa [failed] using this

theorem block_loop_offsets (bus : Bus) (cmd N : Nat) (hN : 16 * N ≤ MAX_SIZE) :
    ∀ fuel a buf tr offs, a ≤ N → N - a < fuel →
      ∃ r n, block_loop bus cmd (16 * N) fuel (16 * a) buf tr offs = some r ∧ a + n ≤ N ∧
        r.i ≤ 16 * N ∧
        r.offsets = offs ++ (List.range n).map (fun k => 16 * (a + k)) ∧
        r.trace.filterMap BusOp.header = tr.filterMap BusOp.header ++
          (List.range n).map (fun k => (vct_cmd_init (16 * (a + k)) BLOCK_SIZE cmd).bytes) := by
  intro fuel
  induction fuel with
  | zero => intro a buf tr offs _ h; omega
  | succ f ih =>
    intro a buf tr offs haN hfuel
    rw [block_loop]
    by_cases hlt : 16 * a < 16 * N
    · simp only [hlt, if_true, vct_transfer_trace, vct_transfer_ret]
      have hhead : BusOp.header (BusOp.rdwr (vct_messages (16 * a) BLOCK_SIZE
          (List.drop (16 * a) buf) cmd)) = some (vct_cmd_init (16 * a) BLOCK_SIZE cmd).bytes := rfl
      split
      · refine ⟨_, 1, rfl, by omega, by simp only; omega, by simp [List.range_succ], ?_⟩
        simp [List.filterMap_append, hhead, List.range_succ]
      · have hwrap : (16 * a + BLOCK_SIZE) % 2 ^ 32 = 16 * (a + 1) := by
          simp only [BLOCK_SIZE, MAX_SIZE] at *
          omega
        rw [hwrap]
        obtain ⟨r, n, h1, h2, h3, h4, h5⟩ := ih (a + 1) (List.take (16 * a) buf ++
          (vct_transfer bus tr (16 * a) BLOCK_SIZE (List.drop (16 * a) buf) cmd).buf)
          (tr ++ [BusOp.rdwr (vct_messages (16 * a) BLOCK_SIZE (List.drop (16 * a) buf) cmd)])
          (offs ++ [16 * a]) (by omega) (by omega)
        refine ⟨r, n + 1, h1, by omega, h3, ?_, ?_⟩
        · rw [h4, List.range_succ_eq_map]
          simp [Function.comp_def, Nat.add_assoc, Nat.add_comm 1]
        · rw [h5, List.range_succ_eq_map]
          simp [List.filterMap_append, hhead, Function.comp_def, Nat.add_assoc, Nat.add_comm 1]
    · refine ⟨⟨0, 16 * a, buf, tr, offs⟩, 0, by simp only [hlt, if_false], by omega,
        by simp only; omega, by simp, by simp⟩

theorem vct_cmd_init_decode (i cmd : Nat) (hi : i < 2 ^ 24) :
    (vct_cmd_init i BLOCK_SIZE cmd).addr1 * 65536 + (vct_cmd_init i BLOCK_SIZE cmd).addr2 * 256
      + (vct_cmd_init i BLOCK_SIZE cmd).addr3 = i := by
  rw [vct_cmd_init_eq]
  have h1 : i % 2 ^ 32 = i := Nat.mod_eq_of_lt (by omega)
  simp only [h1]
  omega

/-! ## The claims -/

/-- Claim C1: for every opcode byte `cmd`, every address below `2 ^ 24` and every
count in `0..255`, the call `vct_transfer` makes is one `I2C_RDWR` whose header
segment (first message: device `0x68`, written, 5 bytes) is exactly
`[cmd, address >> 16, (address >> 8) & 0xFF, address & 0xFF, count]`, followed
by the payload segment of `count` bytes (read from the device for `READ`,
otherwise the first `count` bytes at `buf`).  For `cmd = WRITE (0x22)`,
`address = 0x010203`, `count = 16` the header is `[0x22, 0x01, 0x02, 0x03, 0x10]`. -/
theorem vct_transfer_header (bus : Bus) (tr : List BusOp) (buf : List Nat)
    (cmd address count : Nat) (hcmd : cmd < 256) (haddr : address < 2 ^ 24) (hcount : count < 256) :
    (vct_transfer bus tr address count buf cmd).trace = tr ++
      [BusOp.rdwr
        [ { addr := 0x68, flags := 0, len := 5
            data := [cmd, address >>> 16, (address >>> 8) &&& 0xFF, address &&& 0xFF, count] },
          { addr := 0x68, flags := if cmd = 0x23 then 1 else 0, len := count
            data := if cmd = 0x23 then [] else buf.take count } ]] ∧
    (vct_transfer bus tr 0x010203 16 buf VCT_WRITE).trace = tr ++
      [BusOp.rdwr
        [ { addr := 0x68, flags := 0, len := 5, data := [0x22, 0x01, 0x02, 0x03, 0x10] },
          { addr := 0x68, flags := 0, len := 16, data := buf.take 16 } ]] := by
  constructor
  · rw [vct_transfer_trace]
    have h1 : address % 2 ^ 32 = address := Nat.mod_eq_of_lt (by omega)
    have h2 : cmd % 256 = cmd := Nat.mod_eq_of_lt hcmd
    have h3 : count % 256 = count := Nat.mod_eq_of_lt hcount
    have h4 : address / 2 ^ 16 % 256 = address / 2 ^ 16 := Nat.mod_eq_of_lt (by omega)
    simp only [vct_messages, vct_cmd_init_eq, vct_cmd.bytes, VCT_READ, VCT_I2C_ADDR, I2C_M_RD,
      shr8_and, addr3_eq, Nat.shiftRight_eq_div_pow, h1, h2, h3]
    simp
    omega
  · rw [vct_transfer_trace]
    rfl

/-- Claim C1 at `cmd = 0x22`, `address = 0x010203`, `count = 16` on `ok_bus`. -/
theorem vct_transfer_header_witness :
    (vct_transfer ok_bus [] 0x010203 16 [1, 2, 3] 0x22).trace = [] ++
      [BusOp.rdwr
        [ { addr := 0x68, flags := 0, len := 5
            data := [0x22, 0x010203 >>> 16, (0x010203 >>> 8) &&& 0xFF, 0x010203 &&& 0xFF, 16] },
          { addr := 0x68, flags := if 0x22 = 0x23 then 1 else 0, len := 16
            data := if 0x22 = 0x23 then [] else [1, 2, 3].take 16 } ]] ∧
    (vct_transfer ok_bus [] 0x010203 16 [1, 2, 3] VCT_WRITE).trace = [] ++
      [BusOp.rdwr
        [ { addr := 0x68, flags := 0, len := 5, data := [0x22, 0x01, 0x02, 0x03, 0x10] },
          { addr := 0x68, flags := 0, len := 16, data := [1, 2, 3].take 16 } ]] :=
  vct_transfer_header ok_bus [] [1, 2, 3] 0x22 0x010203 16 (by decide) (by decide) (by decide)

/-- Claim C2: for every image whose length is a multiple of 16 and at most 8 MiB,
on a bus where no call fails, the write path ends with status 0 after the
version query, the erase, a second version query and then exactly
`length / 16` block transactions in order; the `k`-th one is
`write_block image k`: header `[0x22, a1, a2, a3, 16]` whose three address
bytes encode `16 * k` (so each address is 16 greater than the previous one),
length field 16, and as payload the 16 image bytes from offset `16 * k`. -/
theorem write_issues_every_block (bus : Bus) (env : Env) (hready : env.write_ready)
    (hsize : env.file_size = env.file.length) (h16 : env.file.length % 16 = 0)
    (hmax : env.file.length ≤ 8388608)
    (hbus : ∀ tr op, failed op (bus tr op) = false) :
    main bus env = some
      { status := 0
        trace := [BusOp.smbus_write_byte 0x03, BusOp.smbus_read_byte,
            BusOp.smbus_write_byte_data 0x2a 0x00,
            BusOp.smbus_write_byte 0x03, BusOp.smbus_read_byte] ++
          (List.range (env.file.length / 16)).map (write_block env.file)
        cursor := some env.file.length
        stored := none } ∧
    ((List.range (env.file.length / 16)).map (write_block env.file)).length
      = env.file.length / 16 ∧
    ∀ k, k < env.file.length / 16 →
      ((env.file.drop (16 * k)).take 16).length = 16 ∧
      ∃ a1 a2 a3, write_block env.file k = BusOp.rdwr
          [ { addr := 0x68, flags := 0, len := 5, data := [0x22, a1, a2, a3, 16] },
            { addr := 0x68, flags := 0, len := 16, data := (env.file.drop (16 * k)).take 16 } ] ∧
        a2 < 256 ∧ a3 < 256 ∧ a1 * 65536 + a2 * 256 + a3 = 16 * k := by
  have hwb : ∀ tr, 0 ≤ (bus tr (BusOp.smbus_write_byte 0x03)).ret := by
    intro tr
    have := hbus tr (BusOp.smbus_write_byte 0x03)
    simpa [failed] using this
  have herase : ∀ tr, (bus tr (BusOp.smbus_write_byte_data 0x2a 0)).ret = 0 := by
    intro tr
    have := hbus tr (BusOp.smbus_write_byte_data 0x2a 0)
    simpa [failed] using this
  have hok : ∀ tr msgs, nblocks tr < env.file.length / 16 → 0 ≤ (bus tr (BusOp.rdwr msgs)).ret := by
    intro tr msgs _
    have := hbus tr (BusOp.rdwr msgs)
    simpa [failed] using this
  have key := main_write_counted bus env hready hsize h16 hmax herase (env.file.length / 16)
    (by omega) hok (by intro h; omega)
  have hnot : ¬ (16 * (env.file.length / 16) < env.file.length) := by omega
  have hmul : 16 * (env.file.length / 16) = env.file.length := by omega
  refine ⟨?_, by simp, ?_⟩
  · rw [key, version_trace_ok bus _ (hwb _), version_trace_ok bus _ (hwb _)]
    simp [hnot, hmul]
  · intro k hk
    refine ⟨?_, write_block_decode env.file k⟩
    simp only [List.length_take, List.length_drop]
    omega

/-- Claim C2 on the 32-byte image `0, 1, ..., 31` and `ok_bus`: two blocks, at
addresses 0 and 16. -/
theorem write_issues_every_block_witness :
    main ok_bus (write_env (List.range 32)) = some
      { status := 0
        trace := [BusOp.smbus_write_byte 0x03, BusOp.smbus_read_byte,
            BusOp.smbus_write_byte_data 0x2a 0x00,
            BusOp.smbus_write_byte 0x03, BusOp.smbus_read_byte,
            BusOp.rdwr
              [ { addr := 0x68, flags := 0, len := 5, data := [0x22, 0, 0, 0, 16] },
                { addr := 0x68, flags := 0, len := 16
                  data := [0, 1, 2, 3, 4, 5, 6, 7, 8, 9, 10, 11, 12, 13, 14, 15] } ],
            BusOp.rdwr
              [ { addr := 0x68, flags := 0, len := 5, data := [0x22, 0, 0, 16, 16] },
                { addr := 0x68, flags := 0, len := 16
                  data := [16, 17, 18, 19, 20, 21, 22, 23, 24, 25, 26, 27, 28, 29, 30, 31] } ]]
        cursor := some 32
        stored := none } :=
  (write_issues_every_block ok_bus (write_env (List.range 32)) (by decide) rfl (by decide)
    (by decide) ok_bus_never_fails).1

/-- Claim C3, counterexample: 8 is not a multiple of 16, and with size 8 the read
path and the write path both exit with status 1, yet their trace is not empty:
the version query (write byte `0x03`, read byte) was issued before the size
test. -/
theorem invalid_size_run_queries_version :
    invalid_size 8 = true ∧
    main ok_bus (read_env 8) = some
      { status := 1
        trace := [BusOp.smbus_write_byte 0x03, BusOp.smbus_read_byte]
        cursor := none
        stored := none } ∧
    main ok_bus (write_env [1, 2, 3, 4, 5, 6, 7, 8]) = some
      { status := 1
        trace := [BusOp.smbus_write_byte 0x03, BusOp.smbus_read_byte]
        cursor := none
        stored := none } ∧
    [BusOp.smbus_write_byte 0x03, BusOp.smbus_read_byte] ≠ [] := by
  decide

/-- Claim C3, amended: for every size that is not a multiple of 16 or exceeds
8 MiB, the write path and the read path exit with status 1 having issued
nothing but the initial version query of `main` (line 127): the write of byte
`0x03`, and the read of one byte exactly when that write succeeded.  No erase
and no block transfer occurs. -/
theorem invalid_size_only_version_query (bus : Bus) (env : Env)
    (hopen : env.open_ok = true) (hslave : env.slave_ok = true)
    (hpath :
      (env.mode = Mode.write ∧ 4 ≤ env.argc ∧ env.fopen_ok = true ∧
        (env.file_size % 16 ≠ 0 ∨ 8388608 < env.file_size)) ∨
      (env.mode = Mode.read ∧ 5 ≤ env.argc ∧
        (env.size_arg % 16 ≠ 0 ∨ 8388608 < env.size_arg))) :
    main bus env = some
      { status := 1, trace := (vct_get_version bus []).2, cursor := none, stored := none } ∧
    ((vct_get_version bus []).2 = [BusOp.smbus_write_byte 0x03] ∨
      (vct_get_version bus []).2 = [BusOp.smbus_write_byte 0x03, BusOp.smbus_read_byte]) ∧
    ((vct_get_version bus []).2 = [BusOp.smbus_write_byte 0x03, BusOp.smbus_read_byte] ↔
      0 ≤ (bus [] (BusOp.smbus_write_byte 0x03)).ret) := by
  refine ⟨?_, by simpa using version_trace_cases bus [], ?_⟩
  · rcases hpath with ⟨hm, ha, hf, hs⟩ | ⟨hm, ha, hs⟩
    · have hargc : ¬ env.argc < 4 := by omega
      have hinv : invalid_size env.file_size = true := by
        simp [invalid_size, BLOCK_SIZE, MAX_SIZE]
        omega
      simp only [main, hargc, hopen, hslave, hm, hf, hinv, Bool.not_true, Bool.false_eq_true,
        if_false, if_true, exit_with]
    · have hargc : ¬ env.argc < 4 := by omega
      have hargc5 : ¬ env.argc < 5 := by omega
      have hinv : invalid_size env.size_arg = true := by
        simp [invalid_size, BLOCK_SIZE, MAX_SIZE]
        omega
      simp only [main, hargc, hargc5, hopen, hslave, hm, hinv, Bool.not_true,
        Bool.false_eq_true, if_false, if_true, exit_with]
  · constructor
    · intro h
      by_contra hneg
      have h1 : (bus [] (BusOp.smbus_write_byte 0x03)).ret < 0 := by omega
      simp [vct_get_version, h1] at h
    · intro h
      simpa using version_trace_ok bus [] h

/-- Claim C3, amended, for the read path with size `8 MiB + 16` on a bus whose
version query fails, and for the write path with a 3-byte file on `ok_bus`. -/
theorem invalid_size_only_version_query_witness :
    main no_version_bus (read_env 8388624) = some
      { status := 1, trace := [BusOp.smbus_write_byte 0x03], cursor := none, stored := none } ∧
    main ok_bus (write_env [1, 2, 3]) = some
      { status := 1, trace := [BusOp.smbus_write_byte 0x03, BusOp.smbus_read_byte]
        cursor := none, stored := none } :=
  ⟨(invalid_size_only_version_query no_version_bus (read_env 8388624) rfl rfl
      (Or.inr ⟨rfl, by decide, Or.inr (by decide)⟩)).1,
    (invalid_size_only_version_query ok_bus (write_env [1, 2, 3]) rfl rfl
      (Or.inl ⟨rfl, by decide, rfl, Or.inl (by decide)⟩)).1⟩

/-- Claim C4: for every valid image of at least `k` blocks (`k ≥ 1`), on a bus
whose `k`-th block transaction is the first call to fail, the write path ends
with status 10 and the loop counter at `16 * (k - 1)`; after the version query,
the erase and the second version query its trace holds exactly the block
writes `0, ..., k - 1`, of which the first `k - 1` got a successful response
and the last one, at offset `16 * (k - 1)`, the failing one.  Nothing follows. -/
theorem write_stops_at_first_failure (bus : Bus) (env : Env) (hready : env.write_ready)
    (hsize : env.file_size = env.file.length) (h16 : env.file.length % 16 = 0)
    (hmax : env.file.length ≤ 8388608)
    (k : Nat) (hk : 1 ≤ k) (hkN : 16 * k ≤ env.file.length) (hbus : first_failure_at bus k) :
    main bus env = some
      { status := 10
        trace := [BusOp.smbus_write_byte 0x03, BusOp.smbus_read_byte,
            BusOp.smbus_write_byte_data 0x2a 0x00,
            BusOp.smbus_write_byte 0x03, BusOp.smbus_read_byte] ++
          (List.range k).map (write_block env.file)
        cursor := some (16 * (k - 1))
        stored := none } ∧
    (∀ j, j + 1 < k →
      failed (write_block env.file j)
        (bus ([BusOp.smbus_write_byte 0x03, BusOp.smbus_read_byte,
            BusOp.smbus_write_byte_data 0x2a 0x00,
            BusOp.smbus_write_byte 0x03, BusOp.smbus_read_byte] ++
          (List.range j).map (write_block env.file)) (write_block env.file j)) = false) ∧
    failed (write_block env.file (k - 1))
      (bus ([BusOp.smbus_write_byte 0x03, BusOp.smbus_read_byte,
          BusOp.smbus_write_byte_data 0x2a 0x00,
          BusOp.smbus_write_byte 0x03, BusOp.smbus_read_byte] ++
        (List.range (k - 1)).map (write_block env.file)) (write_block env.file (k - 1))) = true := by
  obtain ⟨hwb, herase, hok, hfail⟩ := first_failure_parts bus k hk hbus
  have key := main_write_counted bus env hready hsize h16 hmax herase (k - 1)
    (by omega) hok (fun _ => hfail)
  have hlt : 16 * (k - 1) < env.file.length := by omega
  have hk1 : k - 1 + 1 = k := by omega
  have hnb : ∀ j, nblocks ([BusOp.smbus_write_byte 0x03, BusOp.smbus_read_byte,
      BusOp.smbus_write_byte_data 0x2a 0x00,
      BusOp.smbus_write_byte 0x03, BusOp.smbus_read_byte] ++
        (List.range j).map (write_block env.file)) = j := by
    intro j
    have := nblocks_hist [BusOp.smbus_write_byte 0x03, BusOp.smbus_read_byte,
      BusOp.smbus_write_byte_data 0x2a 0x00,
      BusOp.smbus_write_byte 0x03, BusOp.smbus_read_byte] (write_block env.file)
      (write_block_is_rdwr _) j
    simpa [hist, nblocks, BusOp.is_rdwr] using this
  refine ⟨?_, ?_, ?_⟩
  · rw [key, version_trace_ok bus _ (hwb _), version_trace_ok bus _ (hwb _)]
    simp [hlt, hk1]
  · intro j hj
    exact (hbus _ _).2.1 (write_block_is_rdwr _ _) (by rw [hnb]; omega)
  · exact (hbus _ _).2.2 (write_block_is_rdwr _ _) (by rw [hnb]; omega)

/-- Claim C4 for `k = 3` and a 64-byte image: two successful block writes, the
third attempted once, status 10 and the counter at offset 32. -/
theorem write_stops_at_first_failure_witness :
    main (fail_bus 3) (write_env (List.replicate 64 7)) = some
      { status := 10
        trace := [BusOp.smbus_write_byte 0x03, BusOp.smbus_read_byte,
            BusOp.smbus_write_byte_data 0x2a 0x00,
            BusOp.smbus_write_byte 0x03, BusOp.smbus_read_byte,
            write_block (List.replicate 64 7) 0, write_block (List.replicate 64 7) 1,
            write_block (List.replicate 64 7) 2]
        cursor := some 32
        stored := none } :=
  (write_stops_at_first_failure (fail_bus 3) (write_env (List.replicate 64 7)) (by decide) rfl
    (by decide) (by decide) 3 (by decide) (by decide) (fail_bus_first_failure 3)).1

/-- Claim C5: for every valid size the bytes the read path hands to `fwrite` are
the concatenation, in address order, of the 16-byte payloads the bus delivered
for the block reads before the first failure: all `size` bytes, with status 0,
when no call fails, and exactly `16 * (k - 1)` bytes, with status 10, when the
`k`-th block transaction is the first call to fail. -/
theorem read_stores_blocks_before_failure (bus : Bus) (env : Env) (hready : env.read_ready)
    (h16 : env.size_arg % 16 = 0) (hmax : env.size_arg ≤ 8388608) :
    ((∀ tr op, failed op (bus tr op) = false) →
      main bus env = some
        { status := 0
          trace := [BusOp.smbus_write_byte 0x03, BusOp.smbus_read_byte] ++
            (List.range (env.size_arg / 16)).map read_block
          cursor := some env.size_arg
          stored := some ((List.range (env.size_arg / 16)).map
            (read_payload bus [BusOp.smbus_write_byte 0x03, BusOp.smbus_read_byte])).flatten } ∧
      ((List.range (env.size_arg / 16)).map
        (read_payload bus [BusOp.smbus_write_byte 0x03, BusOp.smbus_read_byte])).flatten.length
          = env.size_arg) ∧
    (∀ k, 1 ≤ k → 16 * k ≤ env.size_arg → first_failure_at bus k →
      main bus env = some
        { status := 10
          trace := [BusOp.smbus_write_byte 0x03, BusOp.smbus_read_byte] ++
            (List.range k).map read_block
          cursor := some (16 * (k - 1))
          stored := some ((List.range (k - 1)).map
            (read_payload bus [BusOp.smbus_write_byte 0x03, BusOp.smbus_read_byte])).flatten } ∧
      ((List.range (k - 1)).map
        (read_payload bus [BusOp.smbus_write_byte 0x03, BusOp.smbus_read_byte])).flatten.length
          = 16 * (k - 1)) := by
  have hlenp : ∀ n pre, ((List.range n).map (read_payload bus pre)).flatten.length = 16 * n := by
    intro n pre
    induction n with
    | zero => simp
    | succ n ih =>
      rw [List.range_succ, List.map_append, List.flatten_append, List.length_append, ih]
      simp [read_payload]
      omega
  constructor
  · intro hbus
    have hwb : ∀ tr, 0 ≤ (bus tr (BusOp.smbus_write_byte 0x03)).ret := by
      intro tr
      have := hbus tr (BusOp.smbus_write_byte 0x03)
      simpa [failed] using this
    have hok : ∀ tr msgs, nblocks tr < env.size_arg / 16 → 0 ≤ (bus tr (BusOp.rdwr msgs)).ret := by
      intro tr msgs _
      have := hbus tr (BusOp.rdwr msgs)
      simpa [failed] using this
    have key := main_read_counted bus env hready h16 hmax (env.size_arg / 16)
      (by omega) hok (by intro h; omega)
    have hnot : ¬ (16 * (env.size_arg / 16) < env.size_arg) := by omega
    have hmul : 16 * (env.size_arg / 16) = env.size_arg := by omega
    refine ⟨?_, by rw [hlenp]; omega⟩
    rw [key, version_trace_ok bus _ (hwb _)]
    simp [hnot, hmul]
  · intro k hk hkN hbus
    obtain ⟨hwb, _, hok, hfail⟩ := first_failure_parts bus k hk hbus
    have key := main_read_counted bus env hready h16 hmax (k - 1) (by omega) hok
      (fun _ => hfail)
    have hlt : 16 * (k - 1) < env.size_arg := by omega
    have hk1 : k - 1 + 1 = k := by omega
    refine ⟨?_, hlenp _ _⟩
    rw [key, version_trace_ok bus _ (hwb _)]
    simp [hlt, hk1]

/-- Claim C5 for `size = 64` with the third block failing (32 bytes are stored,
status 10) and for `size = 32` without a failure (32 bytes, status 0). -/
theorem read_stores_blocks_before_failure_witness :
    main (fail_bus 3) (read_env 64) = some
      { status := 10
        trace := [BusOp.smbus_write_byte 0x03, BusOp.smbus_read_byte,
          read_block 0, read_block 1, read_block 2]
        cursor := some 32
        stored := some [0, 1, 2, 3, 4, 5, 6, 7, 8, 9, 10, 11, 12, 13, 14, 15,
          16, 17, 18, 19, 20, 21, 22, 23, 24, 25, 26, 27, 28, 29, 30, 31] } ∧
    main ok_bus (read_env 32) = some
      { status := 0
        trace := [BusOp.smbus_write_byte 0x03, BusOp.smbus_read_byte, read_block 0, read_block 1]
        cursor := some 32
        stored := some [100, 101, 102, 103, 104, 105, 106, 107, 108, 109, 110, 111, 112, 113,
          114, 115, 100, 101, 102, 103, 104, 105, 106, 107, 108, 109, 110, 111, 112, 113, 114,
          115] } :=
  ⟨((read_stores_blocks_before_failure (fail_bus 3) (read_env 64) (by decide) (by decide)
      (by decide)).2 3 (by decide) (by decide) (fail_bus_first_failure 3)).1,
    ((read_stores_blocks_before_failure ok_bus (read_env 32) (by decide) (by decide)
      (by decide)).1 ok_bus_never_fails).1⟩

/-- Claim C6: for every valid image, on a bus where the erase command fails, the
write path exits with status 6 right after the erase command; its trace is the
version query followed by the erase command and holds no block transaction. -/
theorem erase_failure_aborts (bus : Bus) (env : Env) (hready : env.write_ready)
    (hsize : env.file_size = env.file.length) (h16 : env.file.length % 16 = 0)
    (hmax : env.file.length ≤ 8388608)
    (herase : ∀ tr, failed (BusOp.smbus_write_byte_data 0x2a 0)
      (bus tr (BusOp.smbus_write_byte_data 0x2a 0)) = true) :
    main bus env = some
      { status := 6
        trace := (vct_get_version bus []).2 ++ [BusOp.smbus_write_byte_data 0x2a 0]
        cursor := none
        stored := none } ∧
    nblocks ((vct_get_version bus []).2 ++ [BusOp.smbus_write_byte_data 0x2a 0]) = 0 := by
  obtain ⟨h1, h2, h3, h4, h5, h6⟩ := hready
  have hargc : ¬ env.argc < 4 := by omega
  have hinv : invalid_size env.file.length = false := by
    simp [invalid_size, BLOCK_SIZE, MAX_SIZE]
    omega
  have hlen : ¬ (min env.file.length env.file.length % 2 ^ 32 < env.file.length) := by
    rw [Nat.min_self]
    omega
  have he : (bus (vct_get_version bus []).2 (BusOp.smbus_write_byte_data 0x2a 0)).ret ≠ 0 := by
    have := herase (vct_get_version bus []).2
    simpa [failed] using this
  constructor
  · simp only [main, hargc, h2, h3, h4, h5, h6, hsize, hinv, List.length_take, hlen, vct_erase,
      VCT_ERASE, Bool.not_true, Bool.false_eq_true, if_false]
    simp [he, exit_with]
  · rw [nblocks_append, nblocks_version]
    rfl

/-- Claim C6 for a 32-byte image on `erase_fail_bus`. -/
theorem erase_failure_aborts_witness :
    main erase_fail_bus (write_env (List.range 32)) = some
      { status := 6
        trace := [BusOp.smbus_write_byte 0x03, BusOp.smbus_read_byte,
          BusOp.smbus_write_byte_data 0x2a 0x00]
        cursor := none
        stored := none } :=
  (erase_failure_aborts erase_fail_bus (write_env (List.range 32)) (by decide) rfl (by decide)
    (by decide) (fun _ => rfl)).1

/-- Claim C7, counterexample: the size test accepts the length 0.  With size 0
the read path stores the empty result with status 0, and the write path of an
empty file erases the flash and ends with status 0. -/
theorem zero_size_accepted :
    invalid_size 0 = false ∧
    main ok_bus (read_env 0) = some
      { status := 0
        trace := [BusOp.smbus_write_byte 0x03, BusOp.smbus_read_byte]
        cursor := some 0
        stored := some [] } ∧
    main ok_bus (write_env []) = some
      { status := 0
        trace := [BusOp.smbus_write_byte 0x03, BusOp.smbus_read_byte,
          BusOp.smbus_write_byte_data 0x2a 0x00,
          BusOp.smbus_write_byte 0x03, BusOp.smbus_read_byte]
        cursor := some 0
        stored := none } := by
  decide

/-- Claim C7, amended: the size test of the write path and of the read path
accepts a length exactly when it is at most 8 MiB (8388608) and divisible by
16; the length 0 and the length 8 MiB are accepted, and `8 MiB + 1` and
`8 MiB + 16` are rejected. -/
theorem size_validation_accepts (size : Nat) :
    (invalid_size size = false ↔ (size ≤ 8388608 ∧ size % 16 = 0)) ∧
    invalid_size 0 = false ∧ invalid_size 8388608 = false ∧ invalid_size 8388609 = true ∧
    invalid_size 8388624 = true := by
  refine ⟨?_, by decide, by decide, by decide, by decide⟩
  simp [invalid_size, BLOCK_SIZE, MAX_SIZE]
  omega

/-- Claim C8: `vct_get_version` writes the byte `0x03` and then reads one byte.
If the write fails it returns 0 and does not attempt the read; if the read
fails it returns 0; if both succeed it returns the byte read.  Whatever the
version queries do, the run goes on: with a successful erase and successful
block transactions the write path issues the erase and every block and ends
with status 0, and the read path reads and stores every block with status 0. -/
theorem get_version_advisory (bus : Bus) :
    (∀ tr, (bus tr (BusOp.smbus_write_byte 0x03)).ret < 0 →
      vct_get_version bus tr = (0, tr ++ [BusOp.smbus_write_byte 0x03])) ∧
    (∀ tr, 0 ≤ (bus tr (BusOp.smbus_write_byte 0x03)).ret →
      (bus (tr ++ [BusOp.smbus_write_byte 0x03]) BusOp.smbus_read_byte).ret < 0 →
      vct_get_version bus tr
        = (0, tr ++ [BusOp.smbus_write_byte 0x03, BusOp.smbus_read_byte])) ∧
    (∀ tr, 0 ≤ (bus tr (BusOp.smbus_write_byte 0x03)).ret →
      0 ≤ (bus (tr ++ [BusOp.smbus_write_byte 0x03]) BusOp.smbus_read_byte).ret →
      (bus (tr ++ [BusOp.smbus_write_byte 0x03]) BusOp.smbus_read_byte).ret < 256 →
      vct_get_version bus tr
        = ((bus (tr ++ [BusOp.smbus_write_byte 0x03]) BusOp.smbus_read_byte).ret.toNat,
            tr ++ [BusOp.smbus_write_byte 0x03, BusOp.smbus_read_byte])) ∧
    (∀ env : Env, env.write_ready → env.file_size = env.file.length →
      env.file.length % 16 = 0 → env.file.length ≤ 8388608 →
      (∀ tr, (bus tr (BusOp.smbus_write_byte_data 0x2a 0x00)).ret = 0) →
      (∀ tr msgs, 0 ≤ (bus tr (BusOp.rdwr msgs)).ret) →
      main bus env = some
        { status := 0
          trace := (vct_get_version bus
              ((vct_get_version bus []).2 ++ [BusOp.smbus_write_byte_data 0x2a 0x00])).2 ++
            (List.range (env.file.length / 16)).map (write_block env.file)
          cursor := some env.file.length
          stored := none }) ∧
    (∀ env : Env, env.read_ready → env.size_arg % 16 = 0 → env.size_arg ≤ 8388608 →
      (∀ tr msgs, 0 ≤ (bus tr (BusOp.rdwr msgs)).ret) →
      main bus env = some
        { status := 0
          trace := (vct_get_version bus []).2 ++ (List.range (env.size_arg / 16)).map read_block
          cursor := some env.size_arg
          stored := some ((List.range (env.size_arg / 16)).map
            (read_payload bus (vct_get_version bus []).2)).flatten }) := by
  refine ⟨?_, ?_, ?_, ?_, ?_⟩
  · intro tr h
    simp [vct_get_version, h]
  · intro tr h1 h2
    have h1n : ¬ (bus tr (BusOp.smbus_write_byte 0x03)).ret < 0 := by omega
    simp [vct_get_version, h1n, h2]
  · intro tr h1 h2 h3
    have h1n : ¬ (bus tr (BusOp.smbus_write_byte 0x03)).ret < 0 := by omega
    have h2n : ¬ (bus (tr ++ [BusOp.smbus_write_byte 0x03]) BusOp.smbus_read_byte).ret < 0 := by
      omega
    have hmod : (bus (tr ++ [BusOp.smbus_write_byte 0x03]) BusOp.smbus_read_byte).ret % 256
        = (bus (tr ++ [BusOp.smbus_write_byte 0x03]) BusOp.smbus_read_byte).ret :=
      Int.emod_eq_of_lt h2 h3
    simp [vct_get_version, h1n, h2n, hmod]
  · intro env hready hsize h16 hmax herase hok
    have key := main_write_counted bus env hready hsize h16 hmax herase (env.file.length / 16)
      (by omega) (fun tr msgs _ => hok tr msgs) (by intro h; omega)
    have hnot : ¬ (16 * (env.file.length / 16) < env.file.length) := by omega
    have hmul : 16 * (env.file.length / 16) = env.file.length := by omega
    rw [key]
    simp [hnot, hmul]
  · intro env hready h16 hmax hok
    have key := main_read_counted bus env hready h16 hmax (env.size_arg / 16)
      (by omega) (fun tr msgs _ => hok tr msgs) (by intro h; omega)
    have hnot : ¬ (16 * (env.size_arg / 16) < env.size_arg) := by omega
    have hmul : 16 * (env.size_arg / 16) = env.size_arg := by omega
    rw [key]
    simp [hnot, hmul]

/-- Claim C8 on a bus whose version query fails at the write phase (the result is
0, the read phase is absent from the trace, and the write and read paths still
complete) and on `ok_bus` (the result is the byte read, `0x31`). -/
theorem get_version_advisory_witness :
    vct_get_version no_version_bus [] = (0, [BusOp.smbus_write_byte 0x03]) ∧
    vct_get_version ok_bus [] = (0x31, [BusOp.smbus_write_byte 0x03, BusOp.smbus_read_byte]) ∧
    main no_version_bus (write_env (List.range 32)) = some
      { status := 0
        trace := [BusOp.smbus_write_byte 0x03, BusOp.smbus_write_byte_data 0x2a 0x00,
          BusOp.smbus_write_byte 0x03, write_block (List.range 32) 0,
          write_block (List.range 32) 1]
        cursor := some 32
        stored := none } ∧
    main no_version_bus (read_env 16) = some
      { status := 0
        trace := [BusOp.smbus_write_byte 0x03, read_block 0]
        cursor := some 16
        stored := some [0, 1, 2, 3, 4, 5, 6, 7, 8, 9, 10, 11, 12, 13, 14, 15] } :=
  ⟨(get_version_advisory no_version_bus).1 [] (by decide),
    (get_version_advisory ok_bus).2.2.1 [] (by decide) (by decide) (by decide),
    (get_version_advisory no_version_bus).2.2.2.1 (write_env (List.range 32)) (by decide) rfl
      (by decide) (by decide) (fun _ => rfl) (fun _ _ => by simp [no_version_bus]),
    (get_version_advisory no_version_bus).2.2.2.2 (read_env 16) (by decide) (by decide)
      (by decide) (fun _ _ => by simp [no_version_bus])⟩

/-- Claim C9, counterexample: the one call of `vct_erase` hands the two bytes
`[0x2a, 0x00]` to the bus, not the five bytes `[0x2a, 0x00, 0x00, 0x00, 0x00]`. -/
theorem erase_sends_two_bytes :
    (vct_erase ok_bus []).2 = [BusOp.smbus_write_byte_data 0x2a 0x00] ∧
    ((vct_erase ok_bus []).2.map BusOp.out_bytes).flatten = [0x2a, 0x00] ∧
    ((vct_erase ok_bus []).2.map BusOp.out_bytes).flatten ≠ [0x2a, 0x00, 0x00, 0x00, 0x00] := by
  decide

/-- Claim C9, amended: `vct_erase` issues exactly one bus transaction, the SMBus
call `i2c_smbus_write_byte_data` with command `ERASE (0x2a)` and data byte
`0x00`, which hands the two bytes `[0x2a, 0x00]` to the bus; it returns 1
exactly when that call returns a nonzero value and 0 otherwise. -/
theorem vct_erase_spec (bus : Bus) (tr : List BusOp) :
    vct_erase bus tr =
      (if failed (BusOp.smbus_write_byte_data 0x2a 0x00)
          (bus tr (BusOp.smbus_write_byte_data 0x2a 0x00)) = true then 1 else 0,
        tr ++ [BusOp.smbus_write_byte_data 0x2a 0x00]) ∧
    (BusOp.smbus_write_byte_data 0x2a 0x00).out_bytes = [0x2a, 0x00] ∧
    (failed (BusOp.smbus_write_byte_data 0x2a 0x00)
        (bus tr (BusOp.smbus_write_byte_data 0x2a 0x00)) = true ↔
      (bus tr (BusOp.smbus_write_byte_data 0x2a 0x00)).ret ≠ 0) := by
  refine ⟨?_, rfl, by simp [failed]⟩
  unfold vct_erase
  by_cases h : (bus tr (BusOp.smbus_write_byte_data 0x2a 0x00)).ret = 0 <;>
    simp [failed, VCT_ERASE, h]

/-- Claim C10: for every size the size test accepts, the block loop (for the
write and the read command alike, on any bus, from any buffer and trace)
terminates, and every value `i` of the loop counter it passes to
`vct_transfer` satisfies `i < 2 ^ 24` and `i + 16 ≤ size`; the increment does
not wrap (`(i + 16) % 2 ^ 32 = i + 16`); the address bytes of the header decode
to `i` (`addr1 * 65536 + addr2 * 256 + addr3 = i`); two offsets of the run with
the same header bytes are equal, and no offset is passed twice.  The headers in
the trace are those of the offsets passed, in order. -/
theorem loop_offsets_fit (bus : Bus) (cmd size : Nat) (buf : List Nat) (tr : List BusOp)
    (hvalid : invalid_size size = false) :
    ∃ r, block_loop bus cmd size (size / BLOCK_SIZE + 1) 0 buf tr [] = some r ∧
      r.trace.filterMap BusOp.header = tr.filterMap BusOp.header ++
        r.offsets.map (fun i => (vct_cmd_init i BLOCK_SIZE cmd).bytes) ∧
      (∀ i ∈ r.offsets, i < 2 ^ 24 ∧ i + 16 ≤ size ∧ (i + BLOCK_SIZE) % 2 ^ 32 = i + 16 ∧
        (vct_cmd_init i BLOCK_SIZE cmd).addr1 * 65536 +
          (vct_cmd_init i BLOCK_SIZE cmd).addr2 * 256 +
          (vct_cmd_init i BLOCK_SIZE cmd).addr3 = i) ∧
      (∀ i ∈ r.offsets, ∀ j ∈ r.offsets,
        (vct_cmd_init i BLOCK_SIZE cmd).bytes = (vct_cmd_init j BLOCK_SIZE cmd).bytes → i = j) ∧
      r.offsets.Nodup := by
  have hv : size % 16 = 0 ∧ size ≤ 8388608 := by
    simp [invalid_size, BLOCK_SIZE, MAX_SIZE] at hvalid
    omega
  obtain ⟨N, rfl⟩ : ∃ N, size = 16 * N := ⟨size / 16, by omega⟩
  obtain ⟨r, n, h1, h2, _, h4, h5⟩ := block_loop_offsets bus cmd N
    (by simp only [MAX_SIZE]; omega) (16 * N / BLOCK_SIZE + 1) 0 buf tr [] (by omega)
    (by simp only [BLOCK_SIZE]; omega)
  have hmem : ∀ i ∈ r.offsets, i % 16 = 0 ∧ i + 16 ≤ 16 * N := by
    intro i hi
    rw [h4] at hi
    simp only [List.nil_append, List.mem_map, List.mem_range] at hi
    obtain ⟨k, hk, rfl⟩ := hi
    omega
  refine ⟨r, by simpa using h1, ?_, ?_, ?_, ?_⟩
  · rw [h5, h4]
    simp [Function.comp_def]
  · intro i hi
    have := hmem i hi
    refine ⟨by omega, this.2, ?_, vct_cmd_init_decode i cmd (by omega)⟩
    simp only [BLOCK_SIZE]
    omega
  · intro i hi j hj hbytes
    have hi2 := hmem i hi
    have hj2 := hmem j hj
    have di := vct_cmd_init_decode i cmd (by omega)
    have dj := vct_cmd_init_decode j cmd (by omega)
    simp only [vct_cmd.bytes, List.cons.injEq] at hbytes
    obtain ⟨_, e1, e2, e3, _⟩ := hbytes
    rw [e1, e2, e3] at di
    omega
  · rw [h4]
    simp only [List.nil_append]
    apply List.Nodup.map _ (List.nodup_range n)
    intro x y hxy
    simp only at hxy
    omega

/-- Claim C10 for `size = 32` and the write command on `ok_bus`. -/
theorem loop_offsets_fit_witness :
    invalid_size 32 = false ∧
    ∃ r, block_loop ok_bus VCT_WRITE 32 (32 / BLOCK_SIZE + 1) 0 (List.range 32) [] [] = some r ∧
      r.trace.filterMap BusOp.header = ([] : List BusOp).filterMap BusOp.header ++
        r.offsets.map (fun i => (vct_cmd_init i BLOCK_SIZE VCT_WRITE).bytes) ∧
      (∀ i ∈ r.offsets, i < 2 ^ 24 ∧ i + 16 ≤ 32 ∧ (i + BLOCK_SIZE) % 2 ^ 32 = i + 16 ∧
        (vct_cmd_init i BLOCK_SIZE VCT_WRITE).addr1 * 65536 +
          (vct_cmd_init i BLOCK_SIZE VCT_WRITE).addr2 * 256 +
          (vct_cmd_init i BLOCK_SIZE VCT_WRITE).addr3 = i) ∧
      (∀ i ∈ r.offsets, ∀ j ∈ r.offsets,
        (vct_cmd_init i BLOCK_SIZE VCT_WRITE).bytes = (vct_cmd_init j BLOCK_SIZE VCT_WRITE).bytes
          → i = j) ∧
      r.offsets.Nodup :=
  ⟨by decide, loop_offsets_fit ok_bus VCT_WRITE 32 (List.range 32) [] (by decide)⟩

end VctFlash
